import Mathlib

/-!
Shallow embedding of the Memento demo
(`src/design-pattern/behavioral/Memento.ts`).

The TypeScript file defines three classes:

* `Originator` — holds a single `state : string`; `save()` returns
  `new ConcreteMemento(this.state)`; `restore(memento)` sets
  `this.state = memento.getState()`; `doSomething()` overwrites the state
  with a freshly generated (random) string.
* `ConcreteMemento` — stores `state` and `date` (the clock reading at
  construction); `getState()` returns the stored state; `getName()` returns
  `` `${date} / (${state.substr(0, 9)}...)` ``; `getDate()` returns the date.
* `Caretaker` — holds `mementos : Memento[]` and a reference to the
  `Originator`; `backup()` pushes `originator.save()`; `undo()` early-returns
  when the array is empty, otherwise pops the last element (throwing if the
  pop yielded `undefined`) and restores it; `showHistory()` iterates the
  array with `for..of` (index 0 first) printing each `getName()`.

Mutable state becomes explicit state passing.  Ambient nondeterminism (the
wall clock read in the `ConcreteMemento` constructor, the random string that
`doSomething` generates) is passed in as an explicit argument, so every run
is a deterministic function of those inputs.  `undo`, whose only
non-returning exit is `throw new Error()`, is embedded as
`Except Unit Caretaker`: `Except.error ()` is the thrown error, `Except.ok`
is a normal (`void`) return.  The `Memento` interface has the single
implementation `ConcreteMemento`, which is the type the embedding stores.
-/

/-- The state captured by `ConcreteMemento`: the originator's string at
construction time, plus the construction date (the clock reading, passed
explicitly). -/
structure ConcreteMemento where
  state : String
  date : String
deriving DecidableEq

/-- `getState()` — returns the stored state. -/
def ConcreteMemento.getState (m : ConcreteMemento) : String :=
  m.state

/-- `getName()` — `` `${this.date} / (${this.state.substr(0, 9)}...)` ``.
JavaScript `substr(0, 9)` takes the first nine characters (the whole string
when it is shorter), i.e. `String.take 9`. -/
def ConcreteMemento.getName (m : ConcreteMemento) : String :=
  m.date ++ " / (" ++ m.state.take 9 ++ "...)"

/-- `getDate()` — returns the stored date. -/
def ConcreteMemento.getDate (m : ConcreteMemento) : String :=
  m.date

/-- `Originator` — its whole state is the single `state : string` field. -/
structure Originator where
  state : String
deriving DecidableEq

/-- `doSomething()` — overwrites the state with a freshly generated random
string; the generated value `v` is passed explicitly. -/
def Originator.doSomething (o : Originator) (v : String) : Originator :=
  { o with state := v }

/-- `save()` — `return new ConcreteMemento(this.state)`; `date` is the clock
reading inside the `ConcreteMemento` constructor, passed explicitly. -/
def Originator.save (o : Originator) (date : String) : ConcreteMemento :=
  ⟨o.state, date⟩

/-- `restore(memento)` — `this.state = memento.getState()`.  There is no
check of which originator produced the memento. -/
def Originator.restore (o : Originator) (m : ConcreteMemento) : Originator :=
  { o with state := m.getState }

/-- `Caretaker` — the memento array (index 0 = first pushed = oldest; the
JavaScript `push`/`pop` end is the tail) and the bound originator.  The
TypeScript caretaker holds the originator by reference; the embedding
carries it in the same record. -/
structure Caretaker where
  mementos : List ConcreteMemento
  originator : Originator
deriving DecidableEq

/-- `backup()` — `this.mementos.push(this.originator.save())`; `date` is the
clock reading at this capture. -/
def Caretaker.backup (c : Caretaker) (date : String) : Caretaker :=
  { c with mementos := c.mementos ++ [c.originator.save date] }

/-- `undo()` — `if (!this.mementos.length) return;` then
`const memento = this.mementos.pop(); if (memento === undefined) throw …;`
then `this.originator.restore(memento)`.  `Except.error ()` is the thrown
error; both `return` exits are `Except.ok`. -/
def Caretaker.undo (c : Caretaker) : Except Unit Caretaker :=
  if c.mementos.length = 0 then
    Except.ok c
  else
    match c.mementos.getLast? with
    | none => Except.error ()
    | some m =>
        Except.ok { mementos := c.mementos.dropLast,
                    originator := c.originator.restore m }

/-- `showHistory()` — iterates `for (const memento of this.mementos)`
(array index 0 first) printing `memento.getName()`; the embedding returns
the printed lines in iteration order.  It reads the state and returns only
strings, mutating nothing. -/
def Caretaker.showHistory (c : Caretaker) : List String :=
  c.mementos.map ConcreteMemento.getName

/-- A business-logic mutation of the owner seen through the caretaker: the
caller mutates the shared originator (as `originator.doSomething()` does in
the demo), which the caretaker observes through its reference. -/
def Caretaker.mutate (c : Caretaker) (v : String) : Caretaker :=
  { c with originator := c.originator.doSomething v }

/-- `n` successive `undo()` calls, stopping (and propagating) if one throws. -/
def Caretaker.undoTimes : Nat → Caretaker → Except Unit Caretaker
  | 0, c => Except.ok c
  | n + 1, c =>
      match c.undo with
      | Except.ok c' => Caretaker.undoTimes n c'
      | Except.error e => Except.error e

/-- One mutation followed by one capture, for each `(value, date)` pair in
the list: the "sequence of mutations each followed by a capture" of the
round-trip property. -/
def Caretaker.runMutCaptures (c : Caretaker) : List (String × String) → Caretaker
  | [] => c
  | p :: ps => Caretaker.runMutCaptures ((c.mutate p.1).backup p.2) ps

/-- What a caller can compute from snapshot metadata alone: strip the date
and the four characters `" / ("` from the front of the label and the four
characters `"...)"` from its end.  Uses only `getName()` and `getDate()`. -/
def recoverFromMeta (label date : String) : String :=
  String.mk ((label.data.drop (date.data.length + 4)).take
    (label.data.length - date.data.length - 8))

/-- `undo()` on an empty history is the early `return;`: no error, nothing
changes. -/
theorem Caretaker.undo_nil (o : Originator) :
    Caretaker.undo ⟨[], o⟩ = Except.ok ⟨[], o⟩ := rfl

/-- `undo()` on a non-empty history pops the last-pushed memento and
restores it. -/
theorem Caretaker.undo_concat (ms : List ConcreteMemento)
    (m : ConcreteMemento) (o : Originator) :
    Caretaker.undo ⟨ms ++ [m], o⟩ = Except.ok ⟨ms, o.restore m⟩ := by
  simp [Caretaker.undo, List.getLast?_concat, List.dropLast_concat]

/-- Running `undo()` once per stored memento empties the stack and leaves
the originator at the state of the oldest memento (or untouched if the
stack was empty). -/
theorem Caretaker.undoTimes_all (l : List ConcreteMemento) (o : Originator) :
    Caretaker.undoTimes l.length ⟨l, o⟩ =
      Except.ok ⟨[], ⟨(l.head?.map ConcreteMemento.state).getD o.state⟩⟩ := by
  induction l using List.reverseRecOn generalizing o with
  | nil => rfl
  | append_singleton l' m ih =>
      have h1 : (l' ++ [m]).length = l'.length + 1 := by simp
      rw [h1]
      show (match Caretaker.undo ⟨l' ++ [m], o⟩ with
            | Except.ok c' => Caretaker.undoTimes l'.length c'
            | Except.error e => Except.error e) = _
      rw [Caretaker.undo_concat]
      show Caretaker.undoTimes l'.length ⟨l', o.restore m⟩ = _
      rw [ih]
      cases l' with
      | nil => rfl
      | cons a t => rfl

/-- Shape of the state after a run of mutation/capture pairs: the snapshots
are appended in order, and the originator holds the last mutated value. -/
theorem Caretaker.runMutCaptures_spec (ps : List (String × String))
    (c : Caretaker) :
    Caretaker.runMutCaptures c ps =
      ⟨c.mementos ++ ps.map (fun p => ⟨p.1, p.2⟩),
       ⟨ps.foldl (fun _ p => p.1) c.originator.state⟩⟩ := by
  induction ps generalizing c with
  | nil => simp [Caretaker.runMutCaptures]
  | cons p t ih =>
      show Caretaker.runMutCaptures ((c.mutate p.1).backup p.2) t = _
      rw [ih]
      simp [Caretaker.backup, Caretaker.mutate, Originator.doSomething,
        Originator.save]

/-- C1, counterexample.  Start at `v0 = "A"`, mutate to `"B"`, capture
(`backup`), then `undo` once (`n = 1`).  The claim says the value is back to
`v0 = "A"`; the code pops the snapshot of `"B"` taken *after* the mutation
and restores it, so the value stays `"B"`. -/
theorem c1_roundtrip_counterexample :
    Caretaker.undoTimes 1 (Caretaker.runMutCaptures ⟨[], ⟨"A"⟩⟩ [("B", "d1")]) =
      Except.ok ⟨[], ⟨"B"⟩⟩ ∧ ("B" : String) ≠ "A" :=
  ⟨rfl, by decide⟩

/-- C1, amended.  After `n ≥ 1` mutations each followed by a capture,
`n` undos leave the owner at the *first* mutation's value `m1` (not at the
initial value `v0`) with the history empty, and one further `undo` returns
normally — the plain early `return;`, not an `EmptyHistory` error value —
leaving the value unchanged. -/
theorem c1_roundtrip_amended (v0 : String) (p : String × String)
    (ps : List (String × String)) :
    Caretaker.undoTimes (ps.length + 1)
        (Caretaker.runMutCaptures ⟨[], ⟨v0⟩⟩ (p :: ps)) =
      Except.ok ⟨[], ⟨p.1⟩⟩ ∧
    Caretaker.undoTimes (ps.length + 1 + 1)
        (Caretaker.runMutCaptures ⟨[], ⟨v0⟩⟩ (p :: ps)) =
      Except.ok ⟨[], ⟨p.1⟩⟩ := by
  have hrun : Caretaker.runMutCaptures ⟨[], ⟨v0⟩⟩ (p :: ps) =
      ⟨(p :: ps).map (fun q => ⟨q.1, q.2⟩),
       ⟨(p :: ps).foldl (fun _ q => q.1) v0⟩⟩ := by
    rw [Caretaker.runMutCaptures_spec]
    rfl
  have hlen : ((p :: ps).map (fun q : String × String =>
      (⟨q.1, q.2⟩ : ConcreteMemento))).length = ps.length + 1 := by
    simp
  have hall := Caretaker.undoTimes_all
    ((p :: ps).map (fun q => ⟨q.1, q.2⟩))
    ⟨(p :: ps).foldl (fun _ q => q.1) v0⟩
  rw [hlen] at hall
  have hfirst : Caretaker.undoTimes (ps.length + 1)
      (Caretaker.runMutCaptures ⟨[], ⟨v0⟩⟩ (p :: ps)) =
      Except.ok ⟨[], ⟨p.1⟩⟩ := by
    rw [hrun, hall]
    rfl
  refine ⟨hfirst, ?_⟩
  have hsplit : Caretaker.undoTimes (ps.length + 1 + 1)
      (Caretaker.runMutCaptures ⟨[], ⟨v0⟩⟩ (p :: ps)) =
      Caretaker.undoTimes 1 (⟨[], ⟨p.1⟩⟩ : Caretaker) := by
    have haux : ∀ (k : Nat) (c d : Caretaker),
        Caretaker.undoTimes k c = Except.ok d →
        Caretaker.undoTimes (k + 1) c = Caretaker.undoTimes 1 d := by
      intro k
      induction k with
      | zero =>
          intro c d h
          cases h
          rfl
      | succ n ihn =>
          intro c d h
          show (match c.undo with
                | Except.ok c' => Caretaker.undoTimes (n + 1) c'
                | Except.error e => Except.error e) = _
          revert h
          show (match c.undo with
                | Except.ok c' => Caretaker.undoTimes n c'
                | Except.error e => Except.error e) = Except.ok d → _
          cases c.undo with
          | ok c' =>
              intro h
              exact ihn c' d h
          | error e =>
              intro h
              cases h
    exact haux (ps.length + 1) _ _ hfirst
  rw [hsplit]
  rfl

/-- C2, counterexample.  `undo()` on an empty history takes the early
`return;` branch: the call returns normally (the `Except.ok` of a `void`
return, carrying no error value whatsoever) with the state unchanged.  It
does not fail, and in particular produces no `EmptyHistory` result value —
it is exactly the silent no-op the claim rules out. -/
theorem c2_empty_undo_counterexample :
    Caretaker.undo ⟨[], ⟨"A"⟩⟩ = Except.ok ⟨[], ⟨"A"⟩⟩ := rfl

/-- C2, amended.  Calling `undo` when the undo stack is empty returns
normally with no error indication (a silent no-op, not an `EmptyHistory`
result value), and leaves both the history stack and the Owner's value
unchanged. -/
theorem c2_empty_undo_amended (o : Originator) :
    Caretaker.undo ⟨[], o⟩ = Except.ok ⟨[], o⟩ := rfl

/-- C3, confirmed.  After captures at states `x`, `y`, `z` (snapshots
`s1, s2, s3` in that order), successive `undo` calls restore `s3`'s state
`z` first, then `s2`'s state `y`, then `s1`'s state `x`. -/
theorem c3_lifo_order (x y z d1 d2 d3 : String) :
    ∃ a b c : Caretaker,
      Caretaker.undo
          ((((((Caretaker.mk [] ⟨x⟩).backup d1).mutate y).backup d2).mutate
            z).backup d3) = Except.ok a ∧
      a.originator.state = z ∧
      Caretaker.undo a = Except.ok b ∧
      b.originator.state = y ∧
      Caretaker.undo b = Except.ok c ∧
      c.originator.state = x :=
  ⟨⟨[⟨x, d1⟩, ⟨y, d2⟩], ⟨z⟩⟩, ⟨[⟨x, d1⟩], ⟨y⟩⟩, ⟨[], ⟨x⟩⟩,
    rfl, rfl, rfl, rfl, rfl, rfl⟩

/-- C4, counterexample.  Owner A holds `"x"` and produces a snapshot; owner
B holds `"y"`.  Restoring A's snapshot onto B succeeds and overwrites B's
value with `"x"` — there is no `ForeignSnapshot` failure and B's value does
not stay unchanged. -/
theorem c4_foreign_counterexample :
    Originator.restore ⟨"y"⟩ (Originator.save ⟨"x"⟩ "d") = ⟨"x"⟩ ∧
    ("x" : String) ≠ "y" :=
  ⟨rfl, by decide⟩

/-- C4, amended.  `restore` performs no owner-identity check and never
fails: restoring any snapshot — including one produced by a different
owner — always succeeds and sets the restoring owner's value to the
snapshot's captured state. -/
theorem c4_restore_amended (a b : Originator) (d : String) :
    Originator.restore b (Originator.save a d) = ⟨a.state⟩ := rfl

/-- C7, counterexample.  Capture at `"a"`, mutate to `"b"`, capture again:
`showHistory` lists the older entry first, not the claimed
most-recent-first order (the two labels differ). -/
theorem c7_history_counterexample :
    Caretaker.showHistory
        ((((Caretaker.mk [] ⟨"a"⟩).backup "d").mutate "b").backup "e") ≠
      [ConcreteMemento.getName ⟨"b", "e"⟩,
       ConcreteMemento.getName ⟨"a", "d"⟩] ∧
    Caretaker.showHistory
        ((((Caretaker.mk [] ⟨"a"⟩).backup "d").mutate "b").backup "e") =
      [ConcreteMemento.getName ⟨"a", "d"⟩,
       ConcreteMemento.getName ⟨"b", "e"⟩] :=
  ⟨by decide, rfl⟩

/-- C7, amended.  `showHistory` enumerates the undo stack oldest first —
each capture appends its entry at the *end* of the listing — and, being a
pure observation in this embedding (it returns only strings computed from
the state), it mutates neither the stacks nor the Owner's value. -/
theorem c7_history_order_amended (c : Caretaker) (d : String) :
    Caretaker.showHistory (c.backup d) =
      Caretaker.showHistory c ++ [(c.originator.save d).getName] := by
  simp [Caretaker.showHistory, Caretaker.backup]

/-- C8, confirmed.  The snapshot stored by a capture is fixed at
construction: after the owner later mutates to an arbitrary value `w`, the
stored memento still holds exactly the pre-mutation state and the capture
date, and `getState()` still returns the pre-mutation value. -/
theorem c8_snapshot_isolation (c : Caretaker) (d w : String) :
    ((c.backup d).mutate w).mementos.getLast? =
      some ⟨c.originator.state, d⟩ ∧
    (((c.backup d).mutate w).mementos.getLast?).map ConcreteMemento.getState =
      some c.originator.state := by
  have h : ((c.backup d).mutate w).mementos =
      c.mementos ++ [⟨c.originator.state, d⟩] := rfl
  refine ⟨?_, ?_⟩ <;>
    simp [h, List.getLast?_concat, ConcreteMemento.getState]

/-- C9, confirmed.  The label `getName()` echoes raw state: from the
metadata alone (`getName()` and `getDate()`), a caller recovers the first
nine characters of the captured state (`String.take 9`, the whole state
when shorter) — JavaScript `substr(0, 9)` followed by `"...)"`. -/
theorem c9_label_leak (m : ConcreteMemento) :
    recoverFromMeta m.getName m.getDate = m.state.take 9 := by
  unfold recoverFromMeta ConcreteMemento.getName ConcreteMemento.getDate
  have hsep : (" / (" : String).data.length = 4 := rfl
  have htl : ("...)" : String).data.length = 4 := rfl
  have hdata : (m.date ++ " / (" ++ m.state.take 9 ++ "...)").data =
      (m.date.data ++ (" / (" : String).data) ++
        ((m.state.take 9).data ++ ("...)" : String).data) := by
    simp [String.data_append, List.append_assoc]
  rw [hdata]
  rw [List.drop_left' (by simp [hsep] :
    (m.date.data ++ (" / (" : String).data).length = m.date.data.length + 4)]
  rw [List.take_left' (by simp [hsep, htl] :
    (m.state.take 9).data.length =
      ((m.date.data ++ (" / (" : String).data) ++
        ((m.state.take 9).data ++ ("...)" : String).data)).length -
        m.date.data.length - 8)]

/-- C10, confirmed.  The `throw new Error()` branch in `undo()` is
unreachable: for every caretaker state, `undo` returns normally — when the
guard has not returned, the non-empty array's `pop()` always yields a
memento. -/
theorem c10_undo_never_throws (c : Caretaker) :
    ∃ c', Caretaker.undo c = Except.ok c' := by
  by_cases h : c.mementos.length = 0
  · exact ⟨c, by unfold Caretaker.undo; rw [if_pos h]⟩
  · cases hgl : c.mementos.getLast? with
    | none =>
        have hnil : c.mementos = [] := List.getLast?_eq_none_iff.mp hgl
        exact absurd (by simp [hnil]) h
    | some m =>
        exact ⟨_, by unfold Caretaker.undo; rw [if_neg h, hgl]⟩
